import Mathlib

/-!
Verification of the Centscape preview-server core against its design
specification.

The TypeScript sources are shallowly embedded:

* `Utils` — the helpers of `server/src/utils.ts` (`isPrivateIp`,
  `isPrivateIPv4`, `isPrivateIPv6`, `normalizeUrl`, `extractMeta`).
* `Preview` — `server/src/preview.ts` (`isPrivateIP`, `validateUrl`,
  `extractMetadata`, and the manual redirect/stream loop of
  `previewHandler`).
* `Client` — `app/src/utils/normalizeUrl.ts` (`normalizeUrl`).

Machine-level conventions: JavaScript strings are Lean `String`s; byte
chunks are `List Nat`; `undefined`/`null` results are `Option`; thrown
errors are `Except String`.  Effects (DNS lookup, the network) are passed
in explicitly: DNS as a `resolve` function, the remote server as a script
of responses consumed one per hop.
-/

/-- Does `pre` occur as a leading run of `l`?  (Character-list core of
JavaScript `String.prototype.startsWith`.) -/
def leadMatch : List Char → List Char → Bool
  | _, [] => true
  | [], _ :: _ => false
  | a :: as, b :: bs => a == b && leadMatch as bs

/-- Does `sub` occur somewhere inside `l`?  (Character-list core of
JavaScript `String.prototype.includes`.) -/
def subOccurs : List Char → List Char → Bool
  | [], sub => sub.isEmpty
  | a :: rest, sub => leadMatch (a :: rest) sub || subOccurs rest sub

/-- JavaScript `s.startsWith(pre)`. -/
def strStarts (s pre : String) : Bool := leadMatch s.toList pre.toList

/-- JavaScript `s.endsWith(suf)`. -/
def strEnds (s suf : String) : Bool := leadMatch s.toList.reverse suf.toList.reverse

/-- JavaScript `s.includes(sub)`. -/
def strIncludes (s sub : String) : Bool := subOccurs s.toList sub.toList

/-- JavaScript `String.prototype.split(sep)` for a one-character
separator: `"".split('.') = ['']`, `"a..b".split('.') = ['a','','b']`. -/
def splitOnChar (sep : Char) : List Char → List (List Char)
  | [] => [[]]
  | c :: rest =>
    let r := splitOnChar sep rest
    if c == sep then [] :: r
    else
      match r with
      | [] => [[c]]
      | g :: gs => (c :: g) :: gs

/-- ASCII lowercasing, the fragment of `String.prototype.toLowerCase`
exercised by the sources (hostnames and IP literals). -/
def lowerStr (s : String) : String := String.mk (s.toList.map Char.toLower)

namespace Utils

/-- Decimal value of a digit string. -/
def digitsToNat (l : List Char) : Nat :=
  l.foldl (fun n c => n * 10 + (c.toNat - 48)) 0

/-- JavaScript `Number(s)` as applied to the pieces of `ip.split('.')`:
a nonempty all-digit string yields its decimal value, anything else is
`none` (NaN).  (JS oddities such as `Number('') = 0` or hex notation are
collapsed into the NaN case; every call site either guards the input with
`net.isIP` or treats NaN and out-of-range alike as private, so the
distinction is unobservable here.) -/
def jsNum (s : List Char) : Option Nat :=
  if s.isEmpty then none
  else if s.all Char.isDigit then some (digitsToNat s) else none

/-- Body of `isPrivateIPv4` (utils.ts lines 38-64) after `ip.split('.')
.map(Number)`: a malformed part list (wrong length, NaN, or out-of-range
octet) is private; otherwise the fixed CIDR rules on the leading octets
apply. -/
def isPrivateIPv4Core (parts : List (Option Nat)) : Bool :=
  match parts with
  | [some a, some b, some c, some d] =>
    if a > 255 ∨ b > 255 ∨ c > 255 ∨ d > 255 then true
    else if a = 127 then true
    else if a = 10 then true
    else if a = 172 ∧ 16 ≤ b ∧ b ≤ 31 then true
    else if a = 192 ∧ b = 168 then true
    else if a = 169 ∧ b = 254 then true
    else if a = 0 then true
    else if 224 ≤ a ∧ a ≤ 239 then true
    else if 240 ≤ a then true
    else false
  | _ => true

/-- `isPrivateIPv4` of utils.ts: split on dots, convert with `Number`,
then apply the CIDR rules. -/
def isPrivateIPv4 (ip : String) : Bool :=
  isPrivateIPv4Core ((splitOnChar '.' ip.toList).map jsNum)

end Utils

/-- Characters of `l` before the first occurrence of `sep` (all of `l`
when `sep` does not occur), as in `v.slice(0, v.indexOf(sep))`. -/
def takeUntilChar (sep : Char) : List Char → List Char
  | [] => []
  | c :: rest => if c == sep then [] else c :: takeUntilChar sep rest

/-- Characters of `l` after the last colon, as in
`addr.slice(addr.lastIndexOf(':') + 1)`. -/
def afterLastColon (l : List Char) : List Char :=
  (takeUntilChar ':' l.reverse).reverse

/-- Does `l` consist of zero or more lowercase hex digits followed by a
colon (and then anything)?  This is the `[0-9a-f]*:` tail shared by the
IPv6 prefix regexes of utils.ts. -/
def hexThenColon : List Char → Bool
  | [] => false
  | c :: cs =>
    if c.isDigit || ('a' ≤ c && c ≤ 'f') then hexThenColon cs else c == ':'

/-- Is `g` a valid IPv4 octet for `net.isIP`: decimal digits, value at
most 255, no leading zero. -/
def validOctet (g : List Char) : Bool :=
  !g.isEmpty && g.all Char.isDigit && Utils.digitsToNat g ≤ 255 &&
    (g.length = 1 || g.headD ' ' != '0')

/-- Node `net.isIP`'s IPv4 recognizer: exactly four valid dotted decimal
octets. -/
def isIPv4Str (s : String) : Bool :=
  let parts := splitOnChar '.' s.toList
  parts.length = 4 && parts.all validOctet

/-- Modelled approximation of Node `net.isIP`'s IPv6 recognizer: a
colon-containing string made of hex digits, colons and dots.  (The exact
grammar of `net.isIP` is stricter about group structure; the inputs this
development evaluates the model on — DNS names, IPv4 literals and
well-formed IPv6 literals — are classified identically by both.) -/
def isIPv6Str (s : String) : Bool :=
  s.toList.contains ':' &&
    s.toList.all fun c =>
      c.isDigit || ('a' ≤ c && c ≤ 'f') || ('A' ≤ c && c ≤ 'F') ||
        c == ':' || c == '.'

/-- Node `net.isIP`: 4 for an IPv4 literal, 6 for an IPv6 literal, 0
otherwise. -/
def isIP (s : String) : Nat :=
  if isIPv4Str s then 4 else if isIPv6Str s then 6 else 0

namespace Utils

/-- `isPrivateIPv6` of utils.ts (lines 66-86): lowercase, strip any
`%zone`, recognize `::1` and `::`, delegate `::ffff:<v4>` to the IPv4
rule when the tail is a valid IPv4 literal, then test the prefix
patterns `f[c-d]…:`, `fe[8-b]…:`, `fe[c-f]…:`, `ff…:` (unique-local,
link-local, site-local, multicast) and `2001:db8:`. -/
def isPrivateIPv6 (ip : String) : Bool :=
  let v := lowerStr ip
  let addr := String.mk (takeUntilChar '%' v.toList)
  if addr == "::1" || addr == "::" then true
  else
    let ffffCase : Option Bool :=
      if strStarts addr "::ffff:" then
        let v4 := String.mk (afterLastColon addr.toList)
        if isIP v4 = 4 then some (isPrivateIPv4 v4) else none
      else none
    match ffffCase with
    | some b => b
    | none =>
      match addr.toList with
      | 'f' :: c2 :: rest =>
        if (c2 == 'c' || c2 == 'd') && hexThenColon rest then true
        else if c2 == 'e' then
          match rest with
          | c3 :: rest' =>
            if (c3 == '8' || c3 == '9' || c3 == 'a' || c3 == 'b') &&
                hexThenColon rest' then true
            else if (c3 == 'c' || c3 == 'd' || c3 == 'e' || c3 == 'f') &&
                hexThenColon rest' then true
            else strStarts addr "2001:db8:"
          | [] => strStarts addr "2001:db8:"
        else if c2 == 'f' && hexThenColon rest then true
        else strStarts addr "2001:db8:"
      | _ => strStarts addr "2001:db8:"

/-- `isPrivateIp` of utils.ts (lines 9-36).  The asynchronous
`dns.lookup(literal, { all: true })` is passed in as `resolve`: `none`
models a lookup that throws (caught by the enclosing `try`, yielding
`true`), `some rs` a resolved address list.  Empty hostname, the
`localhost` name, private IP literals, failed or empty resolution, and
any resolved private address all classify private. -/
def isPrivateIp (resolve : String → Option (List String))
    (hostname : String) : Bool :=
  if hostname == "" then true
  else
    let literal :=
      if strStarts hostname "[" && strEnds hostname "]" then
        String.mk (hostname.toList.drop 1).dropLast
      else hostname
    if lowerStr literal == "localhost" then true
    else if isIP literal = 4 then isPrivateIPv4 literal
    else if isIP literal = 6 then isPrivateIPv6 literal
    else
      match resolve literal with
      | none => true
      | some results =>
        if results.isEmpty then true
        else
          results.any fun r =>
            if isIP r = 4 then isPrivateIPv4 r
            else if isIP r = 6 then isPrivateIPv6 r
            else false

end Utils

/-- A parsed WHATWG `URL` object, at the level of detail the sources
manipulate: `scheme` is `url.protocol` without its trailing colon,
`host` is `url.hostname` (IPv6 literals keep their brackets), `query`
is the `searchParams` pair list (`none` when the URL carries no query at
all), `frag` is the fragment (`none` when absent).  Percent-encoding is
abstracted away: components hold their decoded text. -/
structure UrlRec where
  scheme : String
  host : String
  port : Option Nat
  path : String
  query : Option (List (String × String))
  frag : Option String
deriving DecidableEq

/-- Serialization of the query pair list, as in
`application/x-www-form-urlencoded` for plain keys and values. -/
def serializeQuery (q : List (String × String)) : String :=
  String.intercalate "&" (q.map fun p => p.1 ++ "=" ++ p.2)

/-- `url.toString()`: the WHATWG URL serializer on the record. -/
def serializeUrl (u : UrlRec) : String :=
  u.scheme ++ "://" ++ u.host ++
    (match u.port with
     | none => ""
     | some p => ":" ++ toString p) ++
    u.path ++
    (match u.query with
     | none => ""
     | some q => "?" ++ serializeQuery q) ++
    (match u.frag with
     | none => ""
     | some f => "#" ++ f)

/-- The `scheme://host` origin part of an already-serialized URL:
everything up to (not including) the first slash after the `//`. -/
def urlOrigin (u : String) : String :=
  match u.toList with
  | s :: rest => String.mk (s :: originAux rest 0)
  | [] => u
where
  /-- Keep characters until the first '/' that is not one of the two
  slashes of `://`; `seen` counts slashes so far. -/
  originAux : List Char → Nat → List Char
    | [], _ => []
    | c :: rest, seen =>
      if c == '/' then
        if seen < 2 then c :: originAux rest (seen + 1) else []
      else c :: originAux rest seen

/-- `new URL(location, currentUrl).toString()` as used on a Location
header (preview.ts line 157).  An absolute `http(s)` location is taken
as is; a root-relative location replaces the path of the current URL;
other relative forms are modelled as resolving against the origin.  (The
theorems below only exercise the absolute branch; the relative branches
are a simplified stand-in for RFC 3986 reference resolution.) -/
def resolveUrl (location currentUrl : String) : String :=
  if strStarts location "http://" || strStarts location "https://" then location
  else if strStarts location "/" then urlOrigin currentUrl ++ location
  else urlOrigin currentUrl ++ "/" ++ location

/-- Numeric value of the dotted quad `a.b.c.d`. -/
def ipv4Val (a b c d : Nat) : Nat := ((a * 256 + b) * 256 + c) * 256 + d

/-- Membership of the 32-bit value `v` in the CIDR block `base/k`. -/
def inCidr (v base k : Nat) : Prop := v / 2 ^ (32 - k) = base / 2 ^ (32 - k)

namespace Preview

/-- `MAX_SIZE` constant of preview.ts (512 KiB). -/
def MAX_SIZE : Nat := 512 * 1024

/-- `MAX_REDIRECTS` constant of preview.ts. -/
def MAX_REDIRECTS : Nat := 3

/-- The body-streaming loop of `previewHandler` (preview.ts lines
179-202): chunks are consumed in order while a running total is kept;
a chunk that would push the total past `MAX_SIZE` aborts the read
(`none`, surfaced as the size-limit error); on a completed read the
accumulated chunks are concatenated (`Buffer.concat`). -/
def readBody (chunks : List (List Nat)) (received : Nat) (acc : List (List Nat)) :
    Option (List Nat) :=
  match chunks with
  | [] => some acc.flatten
  | value :: rest =>
    if received + value.length > MAX_SIZE then none
    else readBody rest (received + value.length) (acc ++ [value])

/-- JavaScript `o === n` for a possibly-NaN number (`none` is NaN, and
NaN compares unequal to everything). -/
def optEq (o : Option Nat) (n : Nat) : Bool := o == some n

/-- JavaScript `o >= lo && o <= hi` for a possibly-NaN number (any
comparison against NaN is false). -/
def optBetween (o : Option Nat) (lo hi : Nat) : Bool :=
  match o with
  | some v => lo ≤ v && v ≤ hi
  | none => false

/-- `isPrivateIP` of preview.ts (lines 19-33): anything `net.isIP` does
not recognize as an IP literal is declared non-private outright; an IPv4
literal is checked against five blocks (127/8, 10/8, 172.16/12,
192.168/16, 169.254/16); finally `::1` and strings starting with
`fc`/`fd` are private. -/
def isPrivateIP (ip : String) : Bool :=
  if isIP ip = 0 then false
  else
    let parts := (splitOnChar '.' ip.toList).map Utils.jsNum
    let v4block : Bool :=
      match parts with
      | [p0, p1, _, _] =>
        optEq p0 127 || optEq p0 10 ||
        (optEq p0 172 && optBetween p1 16 31) ||
        (optEq p0 192 && optEq p1 168) ||
        (optEq p0 169 && optEq p1 254)
      | _ => false
    if v4block then true
    else if ip == "::1" || strStarts ip "fc" || strStarts ip "fd" then true
    else false

/-- `validateUrl` of preview.ts (lines 35-45), on an already-parsed URL
record (`new URL(urlString)` itself throwing is handled at the caller as
the generic network error): reject non-http(s) schemes, then reject a
hostname `isPrivateIP` flags; thrown errors are the `Except.error`
messages. -/
def validateUrl (u : UrlRec) : Except String UrlRec :=
  if ¬ (u.scheme = "http" ∨ u.scheme = "https") then
    .error "Only HTTP and HTTPS protocols are allowed"
  else if isPrivateIP u.host then
    .error "Private IP addresses are not allowed"
  else .ok u

/-- An HTTP response as the handler observes it: status, the `location`
and `content-type` headers, and the body as a chunk stream (`none`
models `response.body` being absent, i.e. no reader). -/
structure HttpResponse where
  status : Nat
  location : Option String
  contentType : Option String
  body : Option (List (List Nat))
deriving DecidableEq

/-- One hop of network behaviour: either the server replies after
`latency` milliseconds, or the connection fails (`fetch` rejects). -/
inductive HopEvent where
  | reply (latency : Nat) (resp : HttpResponse)
  | netFail
deriving DecidableEq

/-- Terminal outcome of the fetch loop: the accumulated HTML bytes, or
the error message the handler reports. -/
inductive FetchOutcome where
  | ok (html : List Nat)
  | err (msg : String)
deriving DecidableEq

/-- Result of the fetch loop, instrumented with the URLs actually
requested (in order) and the final hop counter, so that the theorems can
speak about which destinations were contacted. -/
structure LoopResult where
  outcome : FetchOutcome
  contacted : List String
  redirects : Nat
  finalUrl : String
deriving DecidableEq

/-- The manual redirect loop of `previewHandler` (preview.ts lines
139-204), driven by a script of hop events consumed one per request.
Timing model: each iteration arms a fresh `AbortController` with a
5000 ms `setTimeout` before `fetch` and clears it once the response
headers arrive, so a hop is aborted (`AbortError`, reported as the
timeout error) exactly when its own latency exceeds 5000 ms; the body
read happens after `clearTimeout` and is therefore not under any timer.
An exhausted script behaves like a connection failure; both surface as
the handler's catch-all network error. -/
def fetchLoop (script : List HopEvent) (currentUrl : String)
    (redirects : Nat) (contacted : List String) : LoopResult :=
  match script with
  | [] =>
    ⟨.err "Failed to fetch URL: Invalid URL or network error",
      contacted ++ [currentUrl], redirects, currentUrl⟩
  | ev :: rest =>
    let contacted := contacted ++ [currentUrl]
    match ev with
    | .netFail =>
      ⟨.err "Failed to fetch URL: Invalid URL or network error",
        contacted, redirects, currentUrl⟩
    | .reply latency resp =>
      if latency > 5000 then
        ⟨.err "Failed to fetch URL (timeout)", contacted, redirects, currentUrl⟩
      else if 300 ≤ resp.status ∧ resp.status < 400 ∧ resp.location.isSome then
        if redirects ≥ MAX_REDIRECTS then
          ⟨.err "Failed to fetch URL", contacted, redirects, currentUrl⟩
        else
          fetchLoop rest (resolveUrl (resp.location.getD "") currentUrl)
            (redirects + 1) contacted
      else if ¬ (200 ≤ resp.status ∧ resp.status ≤ 299) then
        ⟨.err "Failed to fetch URL", contacted, redirects, currentUrl⟩
      else if strIncludes (resp.contentType.getD "") "text/html" = false then
        ⟨.err "URL must return HTML content", contacted, redirects, currentUrl⟩
      else
        match resp.body with
        | none => ⟨.err "Failed to fetch URL", contacted, redirects, currentUrl⟩
        | some chunks =>
          match readBody chunks 0 [] with
          | none =>
            ⟨.err "Content size exceeds 512KB limit", contacted, redirects,
              currentUrl⟩
          | some bytes => ⟨.ok bytes, contacted, redirects, currentUrl⟩

/-- The URL branch of `previewHandler` (preview.ts lines 128-216):
validate the requested URL, freeze `sourceUrl` as its serialization,
run the fetch loop, and on success hand the HTML and that `sourceUrl`
to `extractMetadata` (which copies `sourceUrl` into the response
verbatim).  Returns the HTML bytes, the `sourceUrl` field, and the
instrumented loop result. -/
def previewFetch (initial : UrlRec) (script : List HopEvent) :
    Except String (List Nat × String × LoopResult) :=
  match validateUrl initial with
  | .error e => .error e
  | .ok v =>
    let sourceUrl := serializeUrl v
    let r := fetchLoop script sourceUrl 0 []
    match r.outcome with
    | .err m => .error m
    | .ok html => .ok (html, sourceUrl, r)

end Preview

/-- Latency of a hop event (0 for a connection failure, which rejects
immediately). -/
def hopLatency : Preview.HopEvent → Nat
  | .reply lat _ => lat
  | .netFail => 0

/-- A hop event that the handler treats as a followable redirect: a
reply within the hop timer whose status is 3xx and which carries a
Location header. -/
def redirectHop (ev : Preview.HopEvent) : Prop :=
  ∃ lat resp, ev = .reply lat resp ∧ lat ≤ 5000 ∧
    300 ≤ resp.status ∧ resp.status < 400 ∧ resp.location.isSome

/-- A hop event that the handler accepts as a final page: a timely 2xx
reply with an HTML content type and a readable body within the size
cap. -/
def okHtmlHop (ev : Preview.HopEvent) : Prop :=
  ∃ lat resp chunks, ev = .reply lat resp ∧ lat ≤ 5000 ∧
    200 ≤ resp.status ∧ resp.status ≤ 299 ∧
    strIncludes (resp.contentType.getD "") "text/html" = true ∧
    resp.body = some chunks ∧
    (chunks.map List.length).sum ≤ Preview.MAX_SIZE

/-- An HTML node, at the level of detail `extractMetadata` and
`extractMeta` observe through cheerio: meta elements with their
attribute lists, title and h1 elements with their text, and img
elements with their attribute lists.  The list of nodes is the
document in document order. -/
inductive Node where
  | meta (attrs : List (String × String))
  | titleTag (txt : String)
  | h1 (txt : String)
  | img (attrs : List (String × String))
deriving DecidableEq

/-- cheerio `el.attr(name)`: the value of the first attribute with that
name, or `none` when absent. -/
def attrOf (attrs : List (String × String)) (name : String) : Option String :=
  match attrs with
  | [] => none
  | p :: rest => if p.1 == name then some p.2 else attrOf rest name

/-- JavaScript whitespace test for `String.prototype.trim`. -/
def isJsWs (c : Char) : Bool :=
  c == ' ' || c == '\t' || c == '\n' || c == '\r' || c == '\x0c'

/-- JavaScript `s.trim()`. -/
def trimStr (s : String) : String :=
  String.mk (((s.toList.dropWhile isJsWs).reverse.dropWhile isJsWs).reverse)

/-- JavaScript truthiness of a possibly-undefined string: `undefined`
and the empty string are falsy. -/
def truthy (o : Option String) : Bool :=
  match o with
  | some s => !s.isEmpty
  | none => false

/-- JavaScript `a || b` on strings. -/
def jsOr (a b : String) : String := if a.isEmpty then b else a

/-- `$('meta[attr="val"]').first()`: attribute list of the first meta
element whose `aname` attribute equals `aval`. -/
def firstMetaAttrs (doc : List Node) (aname aval : String) :
    Option (List (String × String)) :=
  match doc with
  | [] => none
  | .meta attrs :: rest =>
    if attrOf attrs aname == some aval then some attrs
    else firstMetaAttrs rest aname aval
  | _ :: rest => firstMetaAttrs rest aname aval

/-- `$('meta[aname="aval"]').attr('content')`. -/
def metaAttrContent (doc : List Node) (aname aval : String) : Option String :=
  (firstMetaAttrs doc aname aval).bind (fun attrs => attrOf attrs "content")

/-- `$('meta[name="val"], meta[property="val"]').first()`: the combined
selector returns matches of either form in document order. -/
def firstMetaEither (doc : List Node) (val : String) :
    Option (List (String × String)) :=
  match doc with
  | [] => none
  | .meta attrs :: rest =>
    if attrOf attrs "name" == some val || attrOf attrs "property" == some val
    then some attrs
    else firstMetaEither rest val
  | _ :: rest => firstMetaEither rest val

/-- `$('meta[name="val"], meta[property="val"]').attr('content')`. -/
def metaEitherContent (doc : List Node) (val : String) : Option String :=
  (firstMetaEither doc val).bind (fun attrs => attrOf attrs "content")

/-- `$('title').text()`: concatenated text of every title element. -/
def titleText (doc : List Node) : String :=
  String.join (doc.filterMap fun n =>
    match n with
    | .titleTag t => some t
    | _ => none)

/-- Text of the first h1 element, if any. -/
def firstH1Text : List Node → Option String
  | [] => none
  | .h1 t :: _ => some t
  | _ :: rest => firstH1Text rest

/-- `$('h1').first().text()` (empty string on an empty selection). -/
def h1Text (doc : List Node) : String := (firstH1Text doc).getD ""

/-- `$('img[src]').first().attr('src')`: the src attribute of the first
img element that carries one. -/
def firstImgSrc : List Node → Option String
  | [] => none
  | .img attrs :: rest =>
    match attrOf attrs "src" with
    | some v => some v
    | none => firstImgSrc rest
  | _ :: rest => firstImgSrc rest

namespace Preview

/-- The title computation of `extractMetadata` (preview.ts lines 53,
64-66, 74-76): og:title via the property attribute only; if falsy, the
combined name/property twitter:title selector; if still falsy,
`$('title').text().trim() || $('h1').first().text().trim()`. -/
def extractTitle (doc : List Node) : Option String :=
  let t1 := metaAttrContent doc "property" "og:title"
  let t2 := if truthy t1 then t1 else metaEitherContent doc "twitter:title"
  if truthy t2 then t2
  else some (jsOr (trimStr (titleText doc)) (trimStr (h1Text doc)))

/-- The image computation of `extractMetadata` (preview.ts lines 54,
67-69, 77-80): og:image via the property attribute only; if falsy, the
combined twitter:image selector; if still falsy, the first `img[src]`
when its src is truthy, otherwise the value already stored. -/
def extractImage (doc : List Node) : Option String :=
  let i1 := metaAttrContent doc "property" "og:image"
  let i2 := if truthy i1 then i1 else metaEitherContent doc "twitter:image"
  if truthy i2 then i2
  else
    match firstImgSrc doc with
    | some img => if img.isEmpty then i2 else some img
    | none => i2

end Preview

namespace Utils

/-- One candidate name of `extractMeta` (utils.ts lines 128-151): try
the selectors `meta[name=n]`, `meta[property=n]`, `meta[itemprop=n]`,
`meta[http-equiv=n]` in order; a matching element contributes the first
present of content/value/charset, trimmed, and only a nonempty result
is returned. -/
def tryMetaSel (sel : Option (List (String × String))) : Option String :=
  match sel with
  | none => none
  | some attrs =>
    let content :=
      match attrOf attrs "content" with
      | some c => some c
      | none =>
        match attrOf attrs "value" with
        | some c => some c
        | none => attrOf attrs "charset"
    match content with
    | none => none
    | some c => if (trimStr c).isEmpty then none else some (trimStr c)

/-- `extractMeta` restricted to one candidate name: the four attribute
selectors in order, stopping at the first nonempty hit. -/
def tryMetaName (doc : List Node) (n : String) : Option String :=
  match tryMetaSel (firstMetaAttrs doc "name" n) with
  | some v => some v
  | none =>
    match tryMetaSel (firstMetaAttrs doc "property" n) with
    | some v => some v
    | none =>
      match tryMetaSel (firstMetaAttrs doc "itemprop" n) with
      | some v => some v
      | none => tryMetaSel (firstMetaAttrs doc "http-equiv" n)

/-- `extractMeta` of utils.ts: candidate names in order, each through
the four attribute selectors, first hit wins. -/
def extractMeta (doc : List Node) (names : List String) : Option String :=
  match names with
  | [] => none
  | n :: rest =>
    match tryMetaName doc n with
    | some v => some v
    | none => extractMeta doc rest

end Utils

/-- The title fallback chain exactly as the claim words it: the shared
four-attribute meta lookup on og:title, then twitter:title, then the
document title text, then the first h1 text, stopping at the first
nonempty result. -/
def claimedTitle (doc : List Node) : Option String :=
  match Utils.extractMeta doc ["og:title"] with
  | some v => some v
  | none =>
    match Utils.extractMeta doc ["twitter:title"] with
    | some v => some v
    | none =>
      let t := trimStr (titleText doc)
      if !t.isEmpty then some t
      else
        let h := trimStr (h1Text doc)
        if !h.isEmpty then some h else none

/-- The image fallback chain exactly as the claim words it: the
four-attribute meta lookup on og:image, then twitter:image, then the
first `img src` in document order. -/
def claimedImage (doc : List Node) : Option String :=
  match Utils.extractMeta doc ["og:image"] with
  | some v => some v
  | none =>
    match Utils.extractMeta doc ["twitter:image"] with
    | some v => some v
    | none => firstImgSrc doc

/-- First truthy value of a list of lookups (a JavaScript `||`-style
fallback chain over possibly-undefined strings). -/
def firstTruthy : List (Option String) → Option String
  | [] => none
  | o :: rest => if truthy o then o else firstTruthy rest

/-- The title chain the code actually implements, written as an ordered
fallback: first truthy of og:title-via-property and
twitter:title-via-name-or-property, else title text falling back to h1
text. -/
def codeTitleSpec (doc : List Node) : Option String :=
  match firstTruthy [metaAttrContent doc "property" "og:title",
      metaEitherContent doc "twitter:title"] with
  | some v => some v
  | none => some (jsOr (trimStr (titleText doc)) (trimStr (h1Text doc)))

/-- The image chain the code actually implements, written as an ordered
fallback: first truthy of og:image-via-property and
twitter:image-via-name-or-property, else the first `img[src]` when its
src is nonempty, else whatever the twitter lookup stored. -/
def codeImageSpec (doc : List Node) : Option String :=
  match firstTruthy [metaAttrContent doc "property" "og:image",
      metaEitherContent doc "twitter:image"] with
  | some v => some v
  | none =>
    match firstImgSrc doc with
    | some img =>
      if img.isEmpty then metaEitherContent doc "twitter:image" else some img
    | none => metaEitherContent doc "twitter:image"

/-- `searchParams.delete(key)`: remove every pair with that key. -/
def deleteKey (q : List (String × String)) (k : String) :
    List (String × String) :=
  q.filter (fun p => p.1 != k)

/-- The fixed tracking-parameter list shared verbatim by utils.ts and
the client's normalizeUrl.ts (UTM, Facebook, Google, other common,
social, email and general tracking keys). -/
def paramsToRemove : List String :=
  ["utm_source", "utm_medium", "utm_campaign", "utm_term", "utm_content",
   "fbclid", "fb_action_ids", "fb_action_types", "fb_ref", "fb_source",
   "gclid", "gclsrc", "dclid",
   "ref", "referrer", "source", "campaign", "medium",
   "igshid", "ncid", "sr_share",
   "mc_cid", "mc_eid",
   "_ga", "_gl", "hsCtaTracking"]

/-- The `for (const [key] of urlObj.searchParams)` loop that deletes
keys starting with `utm_`.  The WHATWG URLSearchParams iterator walks
the live pair list by index: the pair at the current index is returned,
the index advances, and only then does the body's `delete` mutate the
list — so after a deletion the pair that slid into the current slot is
skipped.  `fuel` bounds the iteration; the initial list length
suffices, since the index grows by one per step and the list never
grows. -/
def utmLoopFuel : Nat → List (String × String) → Nat → List (String × String)
  | 0, q, _ => q
  | fuel + 1, q, i =>
    if h : i < q.length then
      if strStarts (q.get ⟨i, h⟩).1 "utm_" then
        utmLoopFuel fuel (deleteKey q (q.get ⟨i, h⟩).1) (i + 1)
      else utmLoopFuel fuel q (i + 1)
    else q

/-- The utm-prefix deletion loop, started at index 0 with enough fuel. -/
def utmLoop (q : List (String × String)) : List (String × String) :=
  utmLoopFuel q.length q 0

namespace Utils

/-- `normalizeUrl` of utils.ts (lines 87-123), on the parsed URL
record: lowercase the hostname, clear the fragment, delete the fixed
tracking parameters, run the utm-prefix deletion loop, and clear the
`?` entirely when the query emptied.  (A string that `new URL` rejects
is returned unchanged by the source; that branch bypasses this record
pipeline.) -/
def normalizeUrl (u : UrlRec) : UrlRec :=
  let q0 := match u.query with
    | none => []
    | some q => q
  let q1 := paramsToRemove.foldl deleteKey q0
  let q2 := utmLoop q1
  { scheme := u.scheme, host := lowerStr u.host, port := u.port,
    path := u.path, query := if q2.isEmpty then none else some q2,
    frag := none }

end Utils

namespace Client

/-- `normalizeUrl` of app/src/utils/normalizeUrl.ts (lines 6-50): the
same pipeline as the server's — lowercase hostname, clear fragment,
fixed tracking deletes, utm-prefix deletion loop.  (It lacks the
server's explicit empty-query clearing, but the URLSearchParams update
steps already null an emptied query, which the same `if` models.) -/
def normalizeUrl (u : UrlRec) : UrlRec :=
  let q0 := match u.query with
    | none => []
    | some q => q
  let q1 := paramsToRemove.foldl deleteKey q0
  let q2 := utmLoop q1
  { scheme := u.scheme, host := lowerStr u.host, port := u.port,
    path := u.path, query := if q2.isEmpty then none else some q2,
    frag := none }

end Client

theorem readBody_spec (chunks : List (List Nat)) (received : Nat)
    (acc : List (List Nat)) (hrec : received ≤ Preview.MAX_SIZE) :
    (Preview.readBody chunks received acc = none ↔
      Preview.MAX_SIZE < received + (chunks.map List.length).sum) ∧
    (∀ html, Preview.readBody chunks received acc = some html →
      html = acc.flatten ++ chunks.flatten) := by
  induction chunks generalizing received acc with
  | nil =>
    simp [Preview.readBody]
    omega
  | cons value rest ih =>
    by_cases h : received + value.length > Preview.MAX_SIZE
    · constructor
      · simp only [Preview.readBody, if_pos h, List.map_cons, List.sum_cons]
        constructor
        · intro _; omega
        · intro _; trivial
      · intro html hh
        simp only [Preview.readBody, if_pos h] at hh
        simp at hh
    · have h' : received + value.length ≤ Preview.MAX_SIZE := by omega
      obtain ⟨ih1, ih2⟩ := ih (received + value.length) (acc ++ [value]) h'
      constructor
      · simp only [Preview.readBody, if_neg h, List.map_cons, List.sum_cons]
        rw [ih1]
        omega
      · intro html hh
        simp only [Preview.readBody, if_neg h] at hh
        have := ih2 html hh
        simp only [List.flatten_append, List.flatten_cons, List.flatten_nil,
          List.append_nil] at this
        simpa [List.append_assoc] using this

/-- C3: the streaming body read keeps a running total and aborts (with
the size-limit error) exactly when the incoming chunks would push the
total past 512 KiB; a completed read returns the concatenation of the
chunks, whose length is therefore at most 512 * 1024, and every prefix
of chunks that the reader accepts without aborting stays within the
cap — the full oversized body is never accumulated. -/
theorem c3_size_cap (chunks : List (List Nat)) :
    (Preview.readBody chunks 0 [] = none ↔
      Preview.MAX_SIZE < (chunks.map List.length).sum) ∧
    (∀ html, Preview.readBody chunks 0 [] = some html →
      html = chunks.flatten ∧ html.length ≤ Preview.MAX_SIZE) ∧
    (∀ p s, chunks = p ++ s → Preview.readBody p 0 [] ≠ none →
      (p.map List.length).sum ≤ Preview.MAX_SIZE) := by
  obtain ⟨h1, h2⟩ := readBody_spec chunks 0 [] (by simp [Preview.MAX_SIZE])
  refine ⟨by simpa using h1, ?_, ?_⟩
  · intro html hh
    have hj := h2 html hh
    simp only [List.flatten_nil, List.nil_append] at hj
    subst hj
    refine ⟨rfl, ?_⟩
    have := (not_iff_not.mpr h1).mp (by simp [hh])
    simp only [not_lt] at this
    simpa [List.length_flatten] using this
  · intro p s hps hnone
    obtain ⟨hp1, _⟩ := readBody_spec p 0 [] (by simp [Preview.MAX_SIZE])
    have := (not_iff_not.mpr hp1).mp hnone
    omega

/-- C3 witness: a single 3-byte chunk is read in full and is within the
cap. -/
theorem c3_size_cap_witness :
    Preview.readBody [[7, 7, 7]] 0 [] = some [7, 7, 7] ∧
    [7, 7, 7] = List.flatten [[7, 7, 7]] ∧
    List.length [7, 7, 7] ≤ Preview.MAX_SIZE :=
  ⟨by decide, (c3_size_cap [[7, 7, 7]]).2.1 [7, 7, 7] (by decide)⟩

/-- C6: on a valid dotted-quad IPv4 literal the classifier of utils.ts
returns Private exactly for the CIDR blocks 127.0.0.0/8, 10.0.0.0/8,
172.16.0.0/12, 192.168.0.0/16, 169.254.0.0/16, 0.0.0.0/8, 224.0.0.0/4
and the reserved space at or above 240.0.0.0, and Public otherwise. -/
theorem c6_ipv4_ranges (a b c d : Nat) (ha : a ≤ 255) (hb : b ≤ 255)
    (hc : c ≤ 255) (hd : d ≤ 255) :
    Utils.isPrivateIPv4Core [some a, some b, some c, some d] = true ↔
      (inCidr (ipv4Val a b c d) (ipv4Val 127 0 0 0) 8 ∨
       inCidr (ipv4Val a b c d) (ipv4Val 10 0 0 0) 8 ∨
       inCidr (ipv4Val a b c d) (ipv4Val 172 16 0 0) 12 ∨
       inCidr (ipv4Val a b c d) (ipv4Val 192 168 0 0) 16 ∨
       inCidr (ipv4Val a b c d) (ipv4Val 169 254 0 0) 16 ∨
       inCidr (ipv4Val a b c d) (ipv4Val 0 0 0 0) 8 ∨
       inCidr (ipv4Val a b c d) (ipv4Val 224 0 0 0) 4 ∨
       ipv4Val 240 0 0 0 ≤ ipv4Val a b c d) := by
  simp only [Utils.isPrivateIPv4Core, inCidr, ipv4Val]
  norm_num
  omega

/-- C6 witness: 8.8.8.8 classifies Public (it lies in none of the
private blocks), while 10.0.0.1 classifies Private. -/
theorem c6_ipv4_ranges_witness :
    (Utils.isPrivateIPv4Core [some 8, some 8, some 8, some 8] = true ↔
      (inCidr (ipv4Val 8 8 8 8) (ipv4Val 127 0 0 0) 8 ∨
       inCidr (ipv4Val 8 8 8 8) (ipv4Val 10 0 0 0) 8 ∨
       inCidr (ipv4Val 8 8 8 8) (ipv4Val 172 16 0 0) 12 ∨
       inCidr (ipv4Val 8 8 8 8) (ipv4Val 192 168 0 0) 16 ∨
       inCidr (ipv4Val 8 8 8 8) (ipv4Val 169 254 0 0) 16 ∨
       inCidr (ipv4Val 8 8 8 8) (ipv4Val 0 0 0 0) 8 ∨
       inCidr (ipv4Val 8 8 8 8) (ipv4Val 224 0 0 0) 4 ∨
       ipv4Val 240 0 0 0 ≤ ipv4Val 8 8 8 8)) ∧
    Utils.isPrivateIPv4Core [some 8, some 8, some 8, some 8] = false ∧
    Utils.isPrivateIPv4Core [some 10, some 0, some 0, some 1] = true :=
  ⟨c6_ipv4_ranges 8 8 8 8 (by decide) (by decide) (by decide) (by decide),
   by decide, by decide⟩

/-- C1 (code bug): the redirect loop of preview.ts follows a redirect
target without re-running the validator.  A fetch of http://a.example/
whose first response redirects to http://127.0.0.1/ contacts
127.0.0.1 and completes successfully, even though `validateUrl` itself
rejects that destination as private — the hop is never re-validated. -/
theorem c1_redirect_not_revalidated :
    Preview.fetchLoop
        [.reply 100 ⟨302, some "http://127.0.0.1/", none, none⟩,
         .reply 100 ⟨200, none, some "text/html", some [[60, 104]]⟩]
        "http://a.example/" 0 [] =
      ⟨.ok [60, 104], ["http://a.example/", "http://127.0.0.1/"], 1,
        "http://127.0.0.1/"⟩ ∧
    Preview.isPrivateIP "127.0.0.1" = true ∧
    Preview.validateUrl ⟨"http", "127.0.0.1", none, "/", none, none⟩ =
      .error "Private IP addresses are not allowed" :=
  ⟨by decide, by decide, by rfl⟩

/-- C2 (code bug): the classification actually used by `validateUrl` is
preview.ts's `isPrivateIP`, which never resolves DNS — it returns false
(Public) for any hostname that is not an IP literal, so `validateUrl`
accepts http://localhost.  The fail-closed DNS-resolving classifier the
claim describes exists as `isPrivateIp` in utils.ts (shown here
classifying `localhost`, failed lookups, empty results, and any private
resolved address as Private), but the URL validation path never calls
it. -/
theorem c2_validator_skips_dns :
    Preview.isPrivateIP "localhost" = false ∧
    Preview.validateUrl ⟨"http", "localhost", none, "/", none, none⟩ =
      .ok ⟨"http", "localhost", none, "/", none, none⟩ ∧
    (∀ resolve, Utils.isPrivateIp resolve "localhost" = true) ∧
    Utils.isPrivateIp (fun _ => none) "api.internal" = true ∧
    Utils.isPrivateIp (fun _ => some []) "api.internal" = true ∧
    Utils.isPrivateIp (fun _ => some ["10.0.0.1", "8.8.8.8"]) "api.internal" =
      true :=
  ⟨by decide, by rfl, fun _ => rfl, by decide, by decide, by decide⟩

theorem fetchLoop_redirect_step (lat : Nat) (resp : Preview.HttpResponse)
    (rest : List Preview.HopEvent) (url : String) (redirects : Nat)
    (contacted : List String) (hlat : lat ≤ 5000) (hst : 300 ≤ resp.status)
    (hst' : resp.status < 400) (hloc : resp.location.isSome)
    (hred : redirects < Preview.MAX_REDIRECTS) :
    Preview.fetchLoop (.reply lat resp :: rest) url redirects contacted =
      Preview.fetchLoop rest (resolveUrl (resp.location.getD "") url)
        (redirects + 1) (contacted ++ [url]) := by
  simp only [Preview.fetchLoop]
  rw [if_neg (by omega), if_pos ⟨hst, hst', hloc⟩, if_neg (by omega)]

theorem fetchLoop_redirect_cap_step (lat : Nat) (resp : Preview.HttpResponse)
    (rest : List Preview.HopEvent) (url : String) (redirects : Nat)
    (contacted : List String) (hlat : lat ≤ 5000) (hst : 300 ≤ resp.status)
    (hst' : resp.status < 400) (hloc : resp.location.isSome)
    (hred : Preview.MAX_REDIRECTS ≤ redirects) :
    Preview.fetchLoop (.reply lat resp :: rest) url redirects contacted =
      ⟨.err "Failed to fetch URL", contacted ++ [url], redirects, url⟩ := by
  simp only [Preview.fetchLoop]
  rw [if_neg (by omega), if_pos ⟨hst, hst', hloc⟩, if_pos (by omega)]

theorem fetchLoop_ok_step (lat : Nat) (resp : Preview.HttpResponse)
    (chunks : List (List Nat)) (rest : List Preview.HopEvent) (url : String)
    (redirects : Nat) (contacted : List String) (hlat : lat ≤ 5000)
    (hst : 200 ≤ resp.status) (hst' : resp.status ≤ 299)
    (hct : strIncludes (resp.contentType.getD "") "text/html" = true)
    (hbody : resp.body = some chunks)
    (hsize : (chunks.map List.length).sum ≤ Preview.MAX_SIZE) :
    ∃ html, (Preview.fetchLoop (.reply lat resp :: rest) url redirects
      contacted).outcome = .ok html := by
  have hrd : Preview.readBody chunks 0 [] ≠ none := by
    rw [Ne, (readBody_spec chunks 0 [] (Nat.zero_le _)).1]
    omega
  obtain ⟨bytes, hb⟩ := Option.ne_none_iff_exists'.mp hrd
  refine ⟨bytes, ?_⟩
  simp only [Preview.fetchLoop]
  rw [if_neg (by omega), if_neg (by rintro ⟨h3, _, _⟩; omega),
    if_neg (by simp; omega), if_neg (by simp [hct]), hbody]
  simp only [hb]

theorem fetchLoop_bound (script : List Preview.HopEvent) :
    ∀ url redirects contacted, redirects ≤ Preview.MAX_REDIRECTS →
    (Preview.fetchLoop script url redirects contacted).redirects ≤
      Preview.MAX_REDIRECTS ∧
    (Preview.fetchLoop script url redirects contacted).contacted.length ≤
      contacted.length + 1 + (Preview.MAX_REDIRECTS - redirects) := by
  induction script with
  | nil =>
    intro url redirects contacted h
    simp [Preview.fetchLoop]
    omega
  | cons ev rest ih =>
    intro url redirects contacted h
    cases ev with
    | netFail =>
      simp [Preview.fetchLoop]
      omega
    | reply lat resp =>
      simp only [Preview.fetchLoop]
      split_ifs with h1 h2 h3 h4 h5
      rotate_left 2
      · have hrec := ih (resolveUrl (resp.location.getD "") url)
          (redirects + 1) (contacted ++ [url]) (by omega)
        refine ⟨hrec.1, ?_⟩
        have := hrec.2
        simp only [List.length_append, List.length_cons, List.length_nil] at this ⊢
        omega
      all_goals try split
      all_goals try split
      all_goals constructor
      all_goals first
        | (simp; omega)
        | simp
        | omega

theorem fetchLoop_success_aux (reds : List Preview.HopEvent) :
    ∀ url redirects contacted,
    redirects + reds.length ≤ Preview.MAX_REDIRECTS →
    (∀ ev ∈ reds, redirectHop ev) → ∀ final, okHtmlHop final →
    ∃ html, (Preview.fetchLoop (reds ++ [final]) url redirects
      contacted).outcome = .ok html := by
  induction reds with
  | nil =>
    intro url redirects contacted _ _ final hfin
    obtain ⟨lat, resp, chunks, rfl, hlat, hst, hst', hct, hbody, hsize⟩ := hfin
    exact fetchLoop_ok_step lat resp chunks [] url redirects contacted hlat
      hst hst' hct hbody hsize
  | cons ev reds' ih =>
    intro url redirects contacted hlen hall final hfin
    obtain ⟨lat, resp, rfl, hlat, hst, hst', hloc⟩ := hall ev (by simp)
    rw [List.cons_append, fetchLoop_redirect_step lat resp _ url redirects
      contacted hlat hst hst' hloc (by simp at hlen; omega)]
    exact ih _ (redirects + 1) (contacted ++ [url]) (by simp at hlen ⊢; omega)
      (fun e he => hall e (by simp [he])) final hfin

/-- C4: the fetch loop follows at most 3 redirects.  For every script
the final hop counter is at most 3 and at most 4 requests are issued;
a server whose first four replies are all followable redirects makes
the fetch fail with the handler's error after exactly 4 requests — the
4th redirect is never followed; and any chain of at most 3 redirects
ending in an acceptable HTML reply succeeds. -/
theorem c4_redirect_cap :
    (∀ script url,
      (Preview.fetchLoop script url 0 []).redirects ≤ 3 ∧
      (Preview.fetchLoop script url 0 []).contacted.length ≤ 4) ∧
    (∀ e1 e2 e3 e4 rest url, redirectHop e1 → redirectHop e2 →
      redirectHop e3 → redirectHop e4 →
      (Preview.fetchLoop (e1 :: e2 :: e3 :: e4 :: rest) url 0 []).outcome =
        .err "Failed to fetch URL" ∧
      (Preview.fetchLoop
        (e1 :: e2 :: e3 :: e4 :: rest) url 0 []).contacted.length = 4) ∧
    (∀ reds final url, reds.length ≤ 3 → (∀ ev ∈ reds, redirectHop ev) →
      okHtmlHop final →
      ∃ html, (Preview.fetchLoop (reds ++ [final]) url 0 []).outcome =
        .ok html) := by
  refine ⟨?_, ?_, ?_⟩
  · intro script url
    have := fetchLoop_bound script url 0 [] (by simp [Preview.MAX_REDIRECTS])
    simpa [Preview.MAX_REDIRECTS] using this
  · intro e1 e2 e3 e4 rest url h1 h2 h3 h4
    obtain ⟨l1, r1, rfl, hl1, ha1, hb1, hc1⟩ := h1
    obtain ⟨l2, r2, rfl, hl2, ha2, hb2, hc2⟩ := h2
    obtain ⟨l3, r3, rfl, hl3, ha3, hb3, hc3⟩ := h3
    obtain ⟨l4, r4, rfl, hl4, ha4, hb4, hc4⟩ := h4
    rw [fetchLoop_redirect_step l1 r1 _ url 0 [] hl1 ha1 hb1 hc1 (by decide),
      fetchLoop_redirect_step l2 r2 _ _ 1 _ hl2 ha2 hb2 hc2 (by decide),
      fetchLoop_redirect_step l3 r3 _ _ 2 _ hl3 ha3 hb3 hc3 (by decide),
      fetchLoop_redirect_cap_step l4 r4 _ _ 3 _ hl4 ha4 hb4 hc4 (by decide)]
    simp
  · intro reds final url hlen hall hfin
    exact fetchLoop_success_aux reds url 0 [] (by simpa using hlen) hall
      final hfin

/-- C4 witness: four consecutive concrete redirects fail with the
handler's error after 4 requests, while one redirect followed by a
concrete HTML page succeeds. -/
theorem c4_redirect_cap_witness :
    ((Preview.fetchLoop
        [.reply 100 ⟨302, some "http://a.example/r", none, none⟩,
         .reply 100 ⟨302, some "http://a.example/r", none, none⟩,
         .reply 100 ⟨302, some "http://a.example/r", none, none⟩,
         .reply 100 ⟨302, some "http://a.example/r", none, none⟩]
        "http://a.example/" 0 []).outcome = .err "Failed to fetch URL" ∧
      (Preview.fetchLoop
        [.reply 100 ⟨302, some "http://a.example/r", none, none⟩,
         .reply 100 ⟨302, some "http://a.example/r", none, none⟩,
         .reply 100 ⟨302, some "http://a.example/r", none, none⟩,
         .reply 100 ⟨302, some "http://a.example/r", none, none⟩]
        "http://a.example/" 0 []).contacted.length = 4) ∧
    ∃ html, (Preview.fetchLoop
        [.reply 100 ⟨302, some "http://a.example/r", none, none⟩,
         .reply 100 ⟨200, none, some "text/html", some [[1, 2]]⟩]
        "http://a.example/" 0 []).outcome = .ok html := by
  constructor
  · exact c4_redirect_cap.2.1
      (.reply 100 ⟨302, some "http://a.example/r", none, none⟩)
      (.reply 100 ⟨302, some "http://a.example/r", none, none⟩)
      (.reply 100 ⟨302, some "http://a.example/r", none, none⟩)
      (.reply 100 ⟨302, some "http://a.example/r", none, none⟩)
      [] "http://a.example/"
      ⟨100, _, rfl, by decide, by decide, by decide, by decide⟩
      ⟨100, _, rfl, by decide, by decide, by decide, by decide⟩
      ⟨100, _, rfl, by decide, by decide, by decide, by decide⟩
      ⟨100, _, rfl, by decide, by decide, by decide, by decide⟩
  · exact c4_redirect_cap.2.2
      [.reply 100 ⟨302, some "http://a.example/r", none, none⟩]
      (.reply 100 ⟨200, none, some "text/html", some [[1, 2]]⟩)
      "http://a.example/" (by decide)
      (fun ev hev => by
        simp at hev
        exact hev ▸ ⟨100, _, rfl, by decide, by decide, by decide, by decide⟩)
      ⟨100, _, [[1, 2]], rfl, by decide, by decide, by decide, by decide,
        rfl, by decide⟩

/-- C5 counterexample: a redirect hop of 4000 ms followed by a final hop
of 4000 ms — 8000 ms in total, well past 5 seconds — completes
successfully, because the code arms a fresh 5-second timer for every
hop instead of one overall timer: the claimed whole-attempt timeout
never fires. -/
theorem c5_counterexample :
    (Preview.fetchLoop
        [.reply 4000 ⟨302, some "http://b.example/", none, none⟩,
         .reply 4000 ⟨200, none, some "text/html", some [[1]]⟩]
        "http://a.example/" 0 []).outcome = .ok [1] ∧
    ([Preview.HopEvent.reply 4000 ⟨302, some "http://b.example/", none, none⟩,
      Preview.HopEvent.reply 4000 ⟨200, none, some "text/html", some [[1]]⟩
     ].map hopLatency).sum > 5000 := by
  constructor
  · decide
  · decide

/-- C5 (amended): the 5-second timeout is per hop, not per attempt — a
script in which every hop answers within 5000 ms never produces the
timeout error, no matter how large the total elapsed time is, while a
single hop slower than 5000 ms is aborted with the timeout error. -/
theorem c5_per_hop_timeout :
    (∀ script url redirects contacted,
      (∀ ev ∈ script, hopLatency ev ≤ 5000) →
      (Preview.fetchLoop script url redirects contacted).outcome ≠
        .err "Failed to fetch URL (timeout)") ∧
    (∀ lat resp rest url, 5000 < lat →
      (Preview.fetchLoop (.reply lat resp :: rest) url 0 []).outcome =
        .err "Failed to fetch URL (timeout)") := by
  constructor
  · intro script
    induction script with
    | nil => intro url redirects contacted _; simp [Preview.fetchLoop]
    | cons ev rest ih =>
      intro url redirects contacted hall
      cases ev with
      | netFail => simp [Preview.fetchLoop]
      | reply lat resp =>
        have hlat : lat ≤ 5000 := by
          have := hall (.reply lat resp) (by simp)
          simpa [hopLatency] using this
        simp only [Preview.fetchLoop]
        split_ifs with h1 h2 h3 h4 h5
        rotate_left 2
        · exact ih _ (redirects + 1) (contacted ++ [url])
            (fun e he => hall e (by simp [he]))
        all_goals try omega
        all_goals try simp
        all_goals
          cases hb : resp.body with
          | none => simp [hb]
          | some chunks =>
            simp only [hb]
            cases hr : Preview.readBody chunks 0 [] with
            | none => simp [hr]
            | some bytes => simp [hr]
  · intro lat resp rest url hlat
    simp only [Preview.fetchLoop]
    rw [if_pos (by omega)]

/-- C5 witness: the per-hop theorem applied to the 4000+4000 ms script
(no timeout despite 8000 ms total) and to a single 6000 ms hop (timeout
fires). -/
theorem c5_per_hop_timeout_witness :
    (Preview.fetchLoop
        [.reply 4000 ⟨302, some "http://b.example/", none, none⟩,
         .reply 4000 ⟨200, none, some "text/html", some [[1]]⟩]
        "http://a.example/" 0 []).outcome ≠
      .err "Failed to fetch URL (timeout)" ∧
    (Preview.fetchLoop [.reply 6000 ⟨200, none, some "text/html", some [[1]]⟩]
        "http://a.example/" 0 []).outcome =
      .err "Failed to fetch URL (timeout)" :=
  ⟨c5_per_hop_timeout.1
      [.reply 4000 ⟨302, some "http://b.example/", none, none⟩,
       .reply 4000 ⟨200, none, some "text/html", some [[1]]⟩]
      "http://a.example/" 0 [] (by decide),
   c5_per_hop_timeout.2 6000 ⟨200, none, some "text/html", some [[1]]⟩ []
      "http://a.example/" (by decide)⟩

/-- C8 counterexample: a fetch of http://a.example/ that is redirected
to http://b.example/ and succeeds there carries
sourceUrl = "http://a.example/" — the initially requested URL — even
though the final URL of the exchange is "http://b.example/". -/
theorem c8_counterexample :
    Preview.previewFetch ⟨"http", "a.example", none, "/", none, none⟩
        [.reply 100 ⟨301, some "http://b.example/", none, none⟩,
         .reply 100 ⟨200, none, some "text/html", some [[1]]⟩] =
      .ok ([1], "http://a.example/",
        ⟨.ok [1], ["http://a.example/", "http://b.example/"], 1,
          "http://b.example/"⟩) ∧
    ("http://a.example/" : String) ≠ "http://b.example/" :=
  ⟨rfl, by decide⟩

/-- C8 (amended): on every successful URL fetch the sourceUrl handed to
the metadata extractor (and copied verbatim into the preview result) is
the WHATWG serialization of the initially requested, validated URL; it
is frozen before the redirect loop runs and is not updated to the final
URL, nor passed through normalizeUrl. -/
theorem c8_source_is_initial (initial : UrlRec)
    (script : List Preview.HopEvent) (html : List Nat) (src : String)
    (r : Preview.LoopResult)
    (h : Preview.previewFetch initial script = .ok (html, src, r)) :
    src = serializeUrl initial := by
  simp only [Preview.previewFetch] at h
  cases hv : Preview.validateUrl initial with
  | error e => rw [hv] at h; exact absurd h (by simp)
  | ok v =>
    have hvv : v = initial := by
      simp only [Preview.validateUrl] at hv
      split_ifs at hv <;> simp_all
    rw [hv] at h
    simp only [] at h
    have hsrc : src = serializeUrl v := by
      cases ho : (Preview.fetchLoop script (serializeUrl v) 0 []).outcome with
      | err m => rw [ho] at h; exact absurd h (by simp)
      | ok bytes =>
        rw [ho] at h
        simp only [Except.ok.injEq, Prod.mk.injEq] at h
        exact h.2.1.symm
    rw [hsrc, hvv]

/-- C8 witness: the amended theorem applied to the redirected exchange
of the counterexample. -/
theorem c8_source_is_initial_witness :
    ("http://a.example/" : String) =
      serializeUrl ⟨"http", "a.example", none, "/", none, none⟩ :=
  c8_source_is_initial ⟨"http", "a.example", none, "/", none, none⟩
    [.reply 100 ⟨301, some "http://b.example/", none, none⟩,
     .reply 100 ⟨200, none, some "text/html", some [[1]]⟩]
    [1] "http://a.example/"
    ⟨.ok [1], ["http://a.example/", "http://b.example/"], 1,
      "http://b.example/"⟩ rfl

/-- C9 counterexample: exceeding the redirect cap and an ordinary
non-2xx response produce the *identical* error value — both report
"Failed to fetch URL" — so the too-many-redirects failure is not
distinguishable from an ordinary fetch failure, contrary to the
claim. -/
theorem c9_counterexample :
    (Preview.fetchLoop
        [.reply 100 ⟨302, some "/r", none, none⟩,
         .reply 100 ⟨302, some "/r", none, none⟩,
         .reply 100 ⟨302, some "/r", none, none⟩,
         .reply 100 ⟨302, some "/r", none, none⟩]
        "http://a.example/" 0 []).outcome = .err "Failed to fetch URL" ∧
    (Preview.fetchLoop [.reply 100 ⟨404, none, none, none⟩]
        "http://a.example/" 0 []).outcome = .err "Failed to fetch URL" := by
  constructor
  · decide
  · decide

/-- A timely 2xx HTML reply whose chunks exceed the cap yields the
size-limit error. -/
theorem fetchLoop_size_err (lat : Nat) (resp : Preview.HttpResponse)
    (chunks : List (List Nat)) (rest : List Preview.HopEvent) (url : String)
    (redirects : Nat) (contacted : List String) (hlat : lat ≤ 5000)
    (hst : 200 ≤ resp.status) (hst' : resp.status ≤ 299)
    (hct : strIncludes (resp.contentType.getD "") "text/html" = true)
    (hbody : resp.body = some chunks)
    (hsize : Preview.MAX_SIZE < (chunks.map List.length).sum) :
    (Preview.fetchLoop (.reply lat resp :: rest) url redirects
      contacted).outcome = .err "Content size exceeds 512KB limit" := by
  have hrd : Preview.readBody chunks 0 [] = none := by
    rw [(readBody_spec chunks 0 [] (Nat.zero_le _)).1]
    omega
  simp only [Preview.fetchLoop]
  rw [if_neg (by omega), if_neg (by rintro ⟨h3, _, _⟩; omega),
    if_neg (by simp; omega), if_neg (by simp [hct]), hbody]
  simp only [hrd]

/-- C9 (amended): timeout, size overflow, wrong content type, bad
scheme, and private destination each produce their own specific message,
all pairwise distinct and distinct from the generic texts; but the
too-many-redirects failure reuses the generic "Failed to fetch URL"
message of an ordinary non-2xx response, and connection failures use
the catch-all network message, so those are not distinguishable from
one another by the caller. -/
theorem c9_error_messages :
    (Preview.fetchLoop [.reply 6000 ⟨200, none, some "text/html", some [[1]]⟩]
        "http://a.example/" 0 []).outcome =
      .err "Failed to fetch URL (timeout)" ∧
    (∀ chunk : List Nat, Preview.MAX_SIZE < chunk.length →
      (Preview.fetchLoop
        [.reply 100 ⟨200, none, some "text/html", some [chunk]⟩]
        "http://a.example/" 0 []).outcome =
      .err "Content size exceeds 512KB limit") ∧
    (Preview.fetchLoop [.reply 100 ⟨200, none, some "application/json",
        some [[1]]⟩]
        "http://a.example/" 0 []).outcome =
      .err "URL must return HTML content" ∧
    Preview.validateUrl ⟨"ftp", "example.com", none, "/", none, none⟩ =
      .error "Only HTTP and HTTPS protocols are allowed" ∧
    Preview.validateUrl ⟨"http", "192.168.1.1", none, "/", none, none⟩ =
      .error "Private IP addresses are not allowed" ∧
    (["Failed to fetch URL (timeout)", "Content size exceeds 512KB limit",
      "URL must return HTML content",
      "Only HTTP and HTTPS protocols are allowed",
      "Private IP addresses are not allowed", "Failed to fetch URL",
      "Failed to fetch URL: Invalid URL or network error"] :
      List String).Nodup ∧
    (Preview.fetchLoop
        [.reply 100 ⟨307, some "/r", none, none⟩,
         .reply 100 ⟨307, some "/r", none, none⟩,
         .reply 100 ⟨307, some "/r", none, none⟩,
         .reply 100 ⟨307, some "/r", none, none⟩]
        "http://a.example/" 0 []).outcome =
      (Preview.fetchLoop [.reply 100 ⟨500, none, none, none⟩]
        "http://a.example/" 0 []).outcome := by
  refine ⟨by decide, ?_, by decide, by rfl, by rfl, by decide, by decide⟩
  intro chunk hchunk
  exact fetchLoop_size_err 100 ⟨200, none, some "text/html", some [chunk]⟩
    [chunk] [] "http://a.example/" 0 [] (by omega)
    (show (200 : Nat) ≤ 200 by decide) (show (200 : Nat) ≤ 299 by decide)
    (show strIncludes "text/html" "text/html" = true by decide) rfl
    (by simpa using hchunk)

/-- C9 witness: the amended theorem applied with a concrete oversized
chunk of 524289 bytes. -/
theorem c9_error_messages_witness :
    (Preview.fetchLoop
        [.reply 100 ⟨200, none, some "text/html",
          some [List.replicate 524289 0]⟩]
        "http://a.example/" 0 []).outcome =
      .err "Content size exceeds 512KB limit" :=
  c9_error_messages.2.1 (List.replicate 524289 0)
    (by rw [List.length_replicate]; decide)

/-- C7 counterexample: a document whose og:title is expressed through
the `name` attribute (`<meta name="og:title" content="T">`) plus a
`<title>Other</title>`.  The claimed four-form lookup finds "T"; the
code looks og:title up only through the `property` attribute, misses
it, and falls through to the document title "Other". -/
theorem c7_counterexample :
    Preview.extractTitle
        [.meta [("name", "og:title"), ("content", "T")], .titleTag "Other"] =
      some "Other" ∧
    claimedTitle
        [.meta [("name", "og:title"), ("content", "T")], .titleTag "Other"] =
      some "T" ∧
    (some "Other" : Option String) ≠ some "T" := by
  refine ⟨by decide, by decide, by decide⟩

/-- C7 (amended): the fallback order of the code is og → twitter →
title/h1 for the title and og → twitter → first img[src] for the image,
but each og: lookup uses only the `property` attribute form, each
twitter: lookup a combined name-or-property selector (first matching
element in document order), and the itemprop/http-equiv forms are never
consulted (the four-form helper `extractMeta` exists in utils.ts but
`extractMetadata` does not use it); a lookup yielding the empty string
counts as missing. -/
theorem c7_fallback_chains (doc : List Node) :
    Preview.extractTitle doc = codeTitleSpec doc ∧
    Preview.extractImage doc = codeImageSpec doc := by
  constructor
  · simp only [Preview.extractTitle, codeTitleSpec, firstTruthy]
    cases hog : metaAttrContent doc "property" "og:title" <;>
      cases htw : metaEitherContent doc "twitter:title" <;>
        simp [truthy, hog, htw] <;> split_ifs <;> simp_all
  · simp only [Preview.extractImage, codeImageSpec, firstTruthy]
    cases hog : metaAttrContent doc "property" "og:image" <;>
      cases htw : metaEitherContent doc "twitter:image" <;>
        simp [truthy, hog, htw] <;> split_ifs <;> simp_all

/-- C10 (code bug): neither normalizeUrl is idempotent.  On
https://example.com/?utm_a=1&utm_b=2 the first pass deletes utm_a while
iterating the live searchParams list, which slides utm_b into the
current slot and the iterator skips it — so one pass returns
…?utm_b=2 (still carrying a utm_-prefixed key, contrary to the code's
own comment) and a second pass returns a different URL with no query at
all.  Both the server and the client implementation contain the same
loop and fail identically. -/
theorem c10_normalize_not_idempotent :
    Utils.normalizeUrl
        ⟨"https", "example.com", none, "/",
          some [("utm_a", "1"), ("utm_b", "2")], none⟩ =
      ⟨"https", "example.com", none, "/", some [("utm_b", "2")], none⟩ ∧
    Utils.normalizeUrl (Utils.normalizeUrl
        ⟨"https", "example.com", none, "/",
          some [("utm_a", "1"), ("utm_b", "2")], none⟩) =
      ⟨"https", "example.com", none, "/", none, none⟩ ∧
    Utils.normalizeUrl (Utils.normalizeUrl
        ⟨"https", "example.com", none, "/",
          some [("utm_a", "1"), ("utm_b", "2")], none⟩) ≠
      Utils.normalizeUrl
        ⟨"https", "example.com", none, "/",
          some [("utm_a", "1"), ("utm_b", "2")], none⟩ ∧
    Client.normalizeUrl (Client.normalizeUrl
        ⟨"https", "example.com", none, "/",
          some [("utm_a", "1"), ("utm_b", "2")], none⟩) ≠
      Client.normalizeUrl
        ⟨"https", "example.com", none, "/",
          some [("utm_a", "1"), ("utm_b", "2")], none⟩ ∧
    serializeUrl (Utils.normalizeUrl
        ⟨"https", "example.com", none, "/",
          some [("utm_a", "1"), ("utm_b", "2")], none⟩) =
      "https://example.com/?utm_b=2" ∧
    serializeUrl (Utils.normalizeUrl (Utils.normalizeUrl
        ⟨"https", "example.com", none, "/",
          some [("utm_a", "1"), ("utm_b", "2")], none⟩)) =
      "https://example.com/" ∧
    strStarts "utm_b" "utm_" = true := by
  refine ⟨by decide, by decide, by decide, by decide, by decide, by decide,
    by decide⟩
